import Mathlib

/-!
Shallow embedding of the messaging core of `src/server.py` (kolkata-job-hub
backend): the `ConnectionManager` registry, `create_message`, the history
query `get_user_messages`, the aggregation `get_conversations`, and the
websocket frame handler of `websocket_endpoint`.

Modelling choices, each tied to the source:
* Server time (`datetime.utcnow()`) is an abstract tick counter `now : Nat`
  held in the server state; `isoformat() + "Z"` is modelled by `isoUtc`,
  which renders the tick and appends the `"Z"` suffix.
* MongoDB `_id` values generated by `insert_one` are modelled by a `nextId`
  supply in the server state.
* JSON values produced by `json.loads` (and consumed by `send_json`) are the
  inductive `Json` below; a Python `dict` coming out of the parser is
  `Json.obj` with last-occurrence-wins key lookup (`objGet`), matching how
  the parser collapses duplicate keys.
* `bson.ObjectId(s)` accepts exactly a 24-character hexadecimal string and
  otherwise raises `InvalidId`; `parseOid` returns `none` exactly in the
  raising case and the lowercased canonical form otherwise.
* Mongo cursors are lists; `.sort` is a deterministic (stable) sort on the
  given key, `.to_list(n)` is `List.take n`.
-/

/-- JSON values, the model of what `json.loads` returns and `send_json`
transmits. -/
inductive Json where
  | null : Json
  | bool (b : Bool) : Json
  | num (n : Int) : Json
  | str (s : String) : Json
  | arr (xs : List Json) : Json
  | obj (fields : List (String × Json)) : Json

/-- Python `dict.get` on a dict built by `json.loads`: a duplicate key in the
source text is collapsed to its last occurrence, so lookup takes the last
binding of the key. -/
def objGet (fields : List (String × Json)) (k : String) : Option Json :=
  (fields.reverse.find? (fun p => p.1 == k)).map Prod.snd

/-- Request body of `POST /api/messages` (`MessageCreate` in `server.py`). -/
structure MessageCreate where
  receiverId : String
  jobId : String
  message : String
deriving DecidableEq

/-- A persisted message document (`Message` in `server.py`); `id` is the
Mongo-generated identifier, `timestamp` the server-assigned creation tick. -/
structure Message extends MessageCreate where
  id : Nat
  senderId : String
  timestamp : Nat
  read : Bool
deriving DecidableEq

/-- A document of the `users` collection, reduced to the fields the messaging
core reads: the (lowercase hexadecimal) `_id` string and the display name. -/
structure UserRec where
  id : String
  name : String
deriving DecidableEq

/-- A live transport connection handle: an identity for the underlying
socket and whether a `send_json` on it succeeds (`ok = false` models a
broken/closed channel whose write raises). -/
structure Conn where
  connId : Nat
  ok : Bool
deriving DecidableEq

/-- State of `ConnectionManager`: the `active_connections` dict (association
list with unique keys, insertion order preserved) together with the trace of
frames actually delivered to sockets, tagged by socket identity. -/
structure MgrState where
  active : List (String × Conn)
  delivered : List (Nat × Json)

/-- Python dict assignment `d[k] = c`: overwrite in place when the key is
present, append a fresh binding otherwise. -/
def dictInsert (k : String) (c : Conn) (d : List (String × Conn)) :
    List (String × Conn) :=
  if d.any (fun p => p.1 == k) then
    d.map (fun p => if p.1 == k then (k, c) else p)
  else d ++ [(k, c)]

/-- `ConnectionManager.connect`: accept the handshake and install the
connection for `u`, unconditionally overwriting any prior entry. -/
def connect (mgr : MgrState) (u : String) (c : Conn) : MgrState :=
  { mgr with active := dictInsert u c mgr.active }

/-- `active_connections[u]` / `u in active_connections`. -/
def lookupConn (mgr : MgrState) (u : String) : Option Conn :=
  (mgr.active.find? (fun p => p.1 == u)).map Prod.snd

/-- `ConnectionManager.disconnect`: delete the entry for `u` if present. -/
def disconnect (mgr : MgrState) (u : String) : MgrState :=
  if mgr.active.any (fun p => p.1 == u) then
    { mgr with active := mgr.active.filter (fun p => !(p.1 == u)) }
  else mgr

/-- `ConnectionManager.send_message`: if an entry exists for `u`, attempt
`send_json`; a transmission failure (`ok = false`) is swallowed by the
`except Exception: pass`, leaving the registry untouched. Total function:
no error ever escapes. -/
def send_message (mgr : MgrState) (u : String) (frame : Json) : MgrState :=
  match lookupConn mgr u with
  | none => mgr
  | some c =>
      if c.ok then { mgr with delivered := mgr.delivered ++ [(c.connId, frame)] }
      else mgr

/-- Whole-server state: the registry, the `messages` and `users` collections,
the `_id` supply and the current server clock tick. -/
structure ServerState where
  mgr : MgrState
  messages : List Message
  users : List UserRec
  nextId : Nat
  now : Nat

/-- `datetime.isoformat() + "Z"` on the abstract clock: a rendering of the
tick with the explicit UTC suffix appended. -/
def isoUtc (t : Nat) : String := toString t ++ "Z"

/-- The `msg_for_ws` dict built in `create_message`: the normalized message
with string identifiers and ISO, UTC-suffixed timestamp. -/
def msgForWs (m : Message) : Json :=
  Json.obj [("id", Json.str (toString m.id)),
            ("senderId", Json.str m.senderId),
            ("receiverId", Json.str m.receiverId),
            ("message", Json.str m.message),
            ("jobId", Json.str m.jobId),
            ("timestamp", Json.str (isoUtc m.timestamp)),
            ("read", Json.bool m.read)]

/-- Outcome of a failed durable append (`db.messages.insert_one` raising). -/
inductive StoreErr where
  | writeFailed : StoreErr
deriving DecidableEq

/-- The response dict of `create_message`: `{**msg_dict, "timestamp": iso}`. -/
structure MessageOut where
  id : Nat
  senderId : String
  receiverId : String
  jobId : String
  message : String
  timestamp : String
  read : Bool
deriving DecidableEq

/-- `POST /api/messages` (`create_message` in `server.py`). `insertOk` is the
outcome of the underlying `insert_one`: when it fails the exception
propagates, nothing is persisted and the `manager.send_message` line is never
reached. On success the message is appended with a fresh id, the current
tick and `read = false`, the normalized `new_message` frame is pushed to the
receiver, and the record is returned with the ISO timestamp. The third
component is the trace of `manager.send_message` calls made. -/
def create_message (insertOk : Bool) (st : ServerState) (m : MessageCreate)
    (senderId : String) :
    Except StoreErr MessageOut × ServerState × List (String × Json) :=
  if insertOk then
    let msg : Message :=
      { receiverId := m.receiverId, jobId := m.jobId, message := m.message,
        id := st.nextId, senderId := senderId, timestamp := st.now,
        read := false }
    let frame := Json.obj [("type", Json.str "new_message"),
                           ("payload", msgForWs msg)]
    (Except.ok { id := msg.id, senderId := senderId,
                 receiverId := m.receiverId, jobId := m.jobId,
                 message := m.message, timestamp := isoUtc st.now,
                 read := false },
     { st with messages := st.messages ++ [msg],
               nextId := st.nextId + 1,
               mgr := send_message st.mgr m.receiverId frame },
     [(m.receiverId, frame)])
  else (Except.error StoreErr.writeFailed, st, [])

/-- The `$or` filter of `get_user_messages`: `(sender, receiver)` equals
`(a, b)` or `(b, a)`. -/
def histFilter (a b : String) (l : List Message) : List Message :=
  l.filter (fun mm =>
    (mm.senderId == a && mm.receiverId == b) ||
    (mm.senderId == b && mm.receiverId == a))

/-- Ascending order on the `timestamp` sort key. -/
def tsLe (x y : Message) : Prop := x.timestamp ≤ y.timestamp

instance : DecidableRel tsLe := fun x y =>
  inferInstanceAs (Decidable (x.timestamp ≤ y.timestamp))

instance : IsTotal Message tsLe := ⟨fun x y => Nat.le_total x.timestamp y.timestamp⟩

instance : IsTrans Message tsLe := ⟨fun _ _ _ h1 h2 => Nat.le_trans h1 h2⟩

/-- `GET /api/messages/{user_id}` (`get_user_messages`): filter to the pair,
`.sort("timestamp", 1)`, `.to_list(1000)`. -/
def get_user_messages (st : ServerState) (a b : String) : List Message :=
  (List.insertionSort tsLe (histFilter a b st.messages)).take 1000

/-- The `$match` stage of the `get_conversations` pipeline:
`senderId = u` or `receiverId = u`. -/
def matchPred (u : String) (m : Message) : Bool :=
  m.senderId == u || m.receiverId == u

/-- The `$cond` group key of the pipeline: the other participant. -/
def counterpart (u : String) (m : Message) : String :=
  if m.senderId = u then m.receiverId else m.senderId

/-- Descending order on the `timestamp` sort key (`$sort: {timestamp: -1}`). -/
def tsGe (x y : Message) : Prop := y.timestamp ≤ x.timestamp

instance : DecidableRel tsGe := fun x y =>
  inferInstanceAs (Decidable (y.timestamp ≤ x.timestamp))

instance : IsTotal Message tsGe := ⟨fun x y => Nat.le_total y.timestamp x.timestamp⟩

instance : IsTrans Message tsGe := ⟨fun _ _ _ h1 h2 => Nat.le_trans h2 h1⟩

/-- The `$group` stage with `lastMessage: {$first: $$ROOT}`: one entry per
distinct group key, carrying the first document of the input stream with
that key. -/
def groupFirstByKey (u : String) : List Message → List (String × Message)
  | [] => []
  | m :: ms =>
      (counterpart u m, m) ::
        (groupFirstByKey u ms).filter (fun p => !(p.1 == counterpart u m))

/-- The aggregation pipeline of `get_conversations` followed by
`.to_list(100)`: match on `u`, sort by timestamp descending, group by
counterpart keeping the first (latest) document, truncate to 100 groups. -/
def convGroups (st : ServerState) (u : String) : List (String × Message) :=
  (groupFirstByKey u (List.insertionSort tsGe (st.messages.filter (matchPred u)))).take 100

/-- `c.isDigit || hex letter`: a character admissible in an ObjectId string. -/
def isHexChar (c : Char) : Bool :=
  c.isDigit || ('a' ≤ c && c ≤ 'f') || ('A' ≤ c && c ≤ 'F')

/-- Lowercasing of an upper-case hexadecimal letter, used for the canonical
(lowercase) rendering of an ObjectId. -/
def hexLower (c : Char) : Char :=
  if 'A' ≤ c && c ≤ 'F' then Char.ofNat (c.toNat + 32) else c

/-- Canonical lowercase form of a hexadecimal string. -/
def canonOid (s : String) : String := String.mk (s.toList.map hexLower)

/-- `bson.ObjectId(s)`: succeeds exactly on 24-character hexadecimal strings,
yielding the canonical lowercase form; any other string raises `InvalidId`
(`none` here). -/
def parseOid (s : String) : Option String :=
  if s.length == 24 && s.toList.all isHexChar then some (canonOid s) else none

/-- `db.users.find_one({"_id": ObjectId(oid)})` against the modelled user
collection, keyed by canonical lowercase hexadecimal ids. -/
def findUser (users : List UserRec) (oid : String) : Option UserRec :=
  users.find? (fun usr => usr.id == oid)

/-- The uncaught `bson.errors.InvalidId` raised by `ObjectId(other_user_id)`
inside `get_conversations` when a counterpart id string is malformed. -/
inductive ConvErr where
  | invalidObjectId : ConvErr
deriving DecidableEq

/-- One element of the list returned by `get_conversations`. -/
structure ConvEntry where
  userId : String
  userName : String
  lastMessage : Message
deriving DecidableEq

/-- The resolution loop of `get_conversations`: for each group, parse the
counterpart id (raising on a malformed one), look the user up, silently skip
the group when the user is absent, and otherwise emit the summary. -/
def resolveConvs (users : List UserRec) :
    List (String × Message) → Except ConvErr (List ConvEntry)
  | [] => Except.ok []
  | (k, m) :: rest =>
      match parseOid k with
      | none => Except.error ConvErr.invalidObjectId
      | some oid =>
          match findUser users oid with
          | none => resolveConvs users rest
          | some usr =>
              match resolveConvs users rest with
              | Except.error e => Except.error e
              | Except.ok tail =>
                  Except.ok ({ userId := k, userName := usr.name,
                               lastMessage := m } :: tail)

/-- `GET /api/messages/conversations/{user_id}` (`get_conversations`). -/
def get_conversations (st : ServerState) (u : String) :
    Except ConvErr (List ConvEntry) :=
  resolveConvs st.users (convGroups st u)

/-- `obj.get("type") == "ping"` on a parsed frame that is a dict. -/
def isPingFrame (fields : List (String × Json)) : Bool :=
  match objGet fields "type" with
  | some (Json.str s) => s == "ping"
  | _ => false

/-- The keep-alive acknowledgment frame `{"type": "pong"}`. -/
def pongFrame : Json := Json.obj [("type", Json.str "pong")]

/-- Outcome of processing one inbound frame in `websocket_endpoint`: either
the receive loop continues (channel stays open) or it exits after the
cleanup of the outer `except` (channel closed). The second component is the
trace of `manager.send_message` calls made while processing the frame. -/
inductive StepResult where
  | stayOpen (st : ServerState) (pushes : List (String × Json)) : StepResult
  | closedConn (st : ServerState) (pushes : List (String × Json)) : StepResult

/-- One iteration of the receive loop of `websocket_endpoint`, on the
outcome of `json.loads(data)` (`none` = `JSONDecodeError`). A parse failure
is swallowed by the inner `except`; a dict frame answers `"ping"` with a
pong push and ignores anything else; a frame whose parse result is not a
dict makes `obj.get` raise `AttributeError`, which the inner
`except (JSONDecodeError, KeyError)` does not catch — the outer
`except Exception` then runs `manager.disconnect` and the loop ends. -/
def handleFrame (st : ServerState) (userId : String) (parsed : Option Json) :
    StepResult :=
  match parsed with
  | none => StepResult.stayOpen st []
  | some (Json.obj fields) =>
      if isPingFrame fields then
        StepResult.stayOpen { st with mgr := send_message st.mgr userId pongFrame }
          [(userId, pongFrame)]
      else StepResult.stayOpen st []
  | some _ => StepResult.closedConn { st with mgr := disconnect st.mgr userId } []

/-- Whether a step outcome leaves the receive loop running. -/
def isOpenStep : StepResult → Bool
  | StepResult.stayOpen _ _ => true
  | StepResult.closedConn _ _ => false

/-- "Message between `u` and `k`": the sender/receiver pair of `m` is
`(u, k)` or `(k, u)`. -/
def betweenB (u k : String) (m : Message) : Bool :=
  (m.senderId == u && m.receiverId == k) ||
  (m.senderId == k && m.receiverId == u)

/-- Registry with no connections. -/
def emptyMgr : MgrState := { active := [], delivered := [] }

/-- Registry holding a single broken connection for `"u2"`. -/
def brokenMgr : MgrState :=
  { active := [("u2", { connId := 7, ok := false })], delivered := [] }

/-- A fresh server with empty collections. -/
def sampleState : ServerState :=
  { mgr := emptyMgr, messages := [], users := [], nextId := 0, now := 0 }

/-- A send request body used in concrete instantiations. -/
def sampleCreate : MessageCreate :=
  { receiverId := "u2", jobId := "j1", message := "hello" }

/-- A well-formed ObjectId string. -/
def aliceId : String := "aaaaaaaaaaaaaaaaaaaaaaaa"

/-- Another well-formed ObjectId string. -/
def bobId : String := "bbbbbbbbbbbbbbbbbbbbbbbb"

/-- User directory entry for `aliceId`. -/
def aliceUser : UserRec := { id := aliceId, name := "Alice" }

/-- User directory entry for `bobId`. -/
def bobUser : UserRec := { id := bobId, name := "Bob" }

/-- A message whose receiver id `"bob"` is not a well-formed ObjectId
string. -/
def danglingMsg : Message :=
  { receiverId := "bob", jobId := "j1", message := "hi", id := 0,
    senderId := aliceId, timestamp := 5, read := false }

/-- A server whose log holds `danglingMsg`. -/
def danglingState : ServerState :=
  { mgr := emptyMgr, messages := [danglingMsg], users := [], nextId := 1,
    now := 6 }

/-- A message towards the well-formed but unregistered id `bobId`. -/
def hexMsg : Message :=
  { receiverId := bobId, jobId := "j1", message := "hi", id := 0,
    senderId := aliceId, timestamp := 5, read := false }

/-- A server whose log holds `hexMsg` and whose user directory is empty. -/
def hexState : ServerState :=
  { mgr := emptyMgr, messages := [hexMsg], users := [], nextId := 1, now := 6 }

/-- A message from `aliceId` to `bobId`, both resolvable in `chatState`. -/
def chatMsg : Message :=
  { receiverId := bobId, jobId := "j1", message := "hello", id := 0,
    senderId := aliceId, timestamp := 3, read := false }

/-- A server with one message and both participants in the directory. -/
def chatState : ServerState :=
  { mgr := emptyMgr, messages := [chatMsg], users := [aliceUser, bobUser],
    nextId := 1, now := 4 }

instance {ε α : Type} [DecidableEq ε] [DecidableEq α] :
    DecidableEq (Except ε α) := fun x y =>
  match x, y with
  | Except.ok a, Except.ok b =>
      if h : a = b then isTrue (by rw [h])
      else isFalse (fun hc => h (Except.ok.inj hc))
  | Except.error a, Except.error b =>
      if h : a = b then isTrue (by rw [h])
      else isFalse (fun hc => h (Except.error.inj hc))
  | Except.ok _, Except.error _ => isFalse (fun hc => Except.noConfusion hc)
  | Except.error _, Except.ok _ => isFalse (fun hc => Except.noConfusion hc)

/-- The `i`-th of many prior messages between `"u1"` and `"u2"`. -/
def pairMsg (i : Nat) : Message :=
  { receiverId := "u2", jobId := "j1", message := "m", id := i,
    senderId := "u1", timestamp := i, read := false }

/-- A log of 1000 messages between `"u1"` and `"u2"`, timestamps 0..999:
the pair's history is already at the `to_list(1000)` cursor bound. -/
def manyMsgs : List Message := (List.range 1000).map pairMsg

/-- A server holding `manyMsgs`, with no open connections. -/
def fullState : ServerState :=
  { mgr := emptyMgr, messages := manyMsgs, users := [], nextId := 1000,
    now := 1000 }

/-- The message persisted by `create_message` on `fullState` with body
`sampleCreate` and sender `"u1"`. -/
def newMsg1000 : Message :=
  { receiverId := "u2", jobId := "j1", message := "hello", id := 1000,
    senderId := "u1", timestamp := 1000, read := false }

/-! ## Helper lemmas -/

theorem find?_overwrite (k : String) (c : Conn) :
    ∀ d : List (String × Conn), d.any (fun p => p.1 == k) = true →
      (d.map (fun p => if p.1 == k then (k, c) else p)).find?
          (fun p => p.1 == k) = some (k, c)
  | [], h => by simp at h
  | p :: d, h => by
      cases hp : (p.1 == k) with
      | true => simp [List.find?, hp]
      | false =>
          have hd : d.any (fun p => p.1 == k) = true := by
            simpa [List.any_cons, hp] using h
          simpa [List.find?, hp] using find?_overwrite k c d hd

theorem find?_dictInsert (k : String) (c : Conn) (d : List (String × Conn)) :
    (dictInsert k c d).find? (fun p => p.1 == k) = some (k, c) := by
  unfold dictInsert
  split
  · exact find?_overwrite k c d (by assumption)
  · rename_i h
    have hnone : d.find? (fun p => p.1 == k) = none := by
      rw [List.find?_eq_none]
      intro p hp hpk
      exact h (List.any_eq_true.mpr ⟨p, hp, hpk⟩)
    rw [List.find?_append, hnone]
    simp [List.find?]

theorem lookupConn_connect (mgr : MgrState) (u : String) (c : Conn) :
    lookupConn (connect mgr u c) u = some c := by
  unfold lookupConn connect
  rw [find?_dictInsert]
  rfl

theorem dictInsert_keys_nodup (k : String) (c : Conn)
    (d : List (String × Conn)) (h : (d.map Prod.fst).Nodup) :
    ((dictInsert k c d).map Prod.fst).Nodup := by
  unfold dictInsert
  split
  · have : (d.map (fun p => if p.1 == k then (k, c) else p)).map Prod.fst
        = d.map Prod.fst := by
      rw [List.map_map]
      apply List.map_congr_left
      intro p _
      by_cases hp : p.1 = k
      · simp [hp]
      · simp [hp, Function.comp]
    rw [this]; exact h
  · rename_i hany
    have hk : k ∉ d.map Prod.fst := by
      intro hmem
      obtain ⟨p, hp, hpk⟩ := List.mem_map.mp hmem
      exact hany (List.any_eq_true.mpr ⟨p, hp, by simp [hpk]⟩)
    simp only [List.map_append, List.map_cons, List.map_nil]
    exact List.Nodup.append h (List.nodup_singleton k)
      (by simpa [List.disjoint_singleton] using hk)

theorem send_message_active (mgr : MgrState) (u : String) (f : Json) :
    (send_message mgr u f).active = mgr.active := by
  unfold send_message
  cases lookupConn mgr u with
  | none => rfl
  | some c =>
      obtain ⟨cid, cok⟩ := c
      cases cok <;> rfl

theorem groupFirstByKey_mem (u : String) :
    ∀ l : List Message, ∀ k : String, ∀ m : Message,
      (k, m) ∈ groupFirstByKey u l → m ∈ l ∧ counterpart u m = k
  | [], k, m, hmem => by simp [groupFirstByKey] at hmem
  | mh :: ms, k, m, hmem => by
      rw [groupFirstByKey, List.mem_cons] at hmem
      cases hmem with
      | inl heq =>
          obtain ⟨hk, hm⟩ := Prod.mk.injEq .. ▸ heq
          subst hm
          exact ⟨List.mem_cons_self _ _, hk.symm⟩
      | inr hmem =>
          have hmem2 := (List.mem_filter.mp hmem).1
          obtain ⟨hml, hcp⟩ := groupFirstByKey_mem u ms k m hmem2
          exact ⟨List.mem_cons_of_mem _ hml, hcp⟩

theorem groupFirstByKey_keys_nodup (u : String) :
    ∀ l : List Message, ((groupFirstByKey u l).map Prod.fst).Nodup
  | [] => by simp [groupFirstByKey]
  | mh :: ms => by
      rw [groupFirstByKey]
      simp only [List.map_cons, List.nodup_cons]
      constructor
      · intro hmem
        obtain ⟨p, hp, hpk⟩ := List.mem_map.mp hmem
        have := (List.mem_filter.mp hp).2
        rw [hpk] at this
        simp at this
      · exact List.Nodup.sublist
          (List.Sublist.map Prod.fst (List.filter_sublist _))
          (groupFirstByKey_keys_nodup u ms)

theorem groupFirstByKey_max (u : String) :
    ∀ l : List Message, l.Pairwise tsGe →
      ∀ k : String, ∀ m : Message, (k, m) ∈ groupFirstByKey u l →
        ∀ m2 ∈ l, counterpart u m2 = k → m2.timestamp ≤ m.timestamp
  | [], _, k, m, hmem => by simp [groupFirstByKey] at hmem
  | mh :: ms, hpw, k, m, hmem => by
      rw [List.pairwise_cons] at hpw
      obtain ⟨hhead, htail⟩ := hpw
      rw [groupFirstByKey, List.mem_cons] at hmem
      intro m2 hm2 hcp2
      cases hmem with
      | inl heq =>
          obtain ⟨hk, hm⟩ := Prod.mk.injEq .. ▸ heq
          subst hm
          rcases List.mem_cons.mp hm2 with h2 | h2
          · subst h2; exact le_refl _
          · exact hhead m2 h2
      | inr hmem =>
          have hmem2 := (List.mem_filter.mp hmem).1
          have hkne := (List.mem_filter.mp hmem).2
          rcases List.mem_cons.mp hm2 with h2 | h2
          · exfalso
            subst h2
            rw [hcp2] at hkne
            simp at hkne
          · exact groupFirstByKey_max u ms htail k m hmem2 m2 h2 hcp2

theorem resolveConvs_keys_sublist (users : List UserRec) :
    ∀ gs : List (String × Message), ∀ l : List ConvEntry,
      resolveConvs users gs = Except.ok l →
        List.Sublist (l.map ConvEntry.userId) (gs.map Prod.fst)
  | [], l, h => by
      rw [resolveConvs] at h
      obtain rfl : ([] : List ConvEntry) = l := Except.ok.inj h
      simp
  | (k, m) :: rest, l, h => by
      rw [resolveConvs] at h
      split at h
      · simp at h
      · split at h
        · simpa using List.Sublist.cons k
            (resolveConvs_keys_sublist users rest l h)
        · split at h
          · simp at h
          · rename_i usr tail hr
            obtain rfl := Except.ok.inj h
            simpa using List.Sublist.cons₂ k
              (resolveConvs_keys_sublist users rest tail hr)

theorem resolveConvs_mem (users : List UserRec) :
    ∀ gs : List (String × Message), ∀ l : List ConvEntry,
      resolveConvs users gs = Except.ok l →
        ∀ e ∈ l, (e.userId, e.lastMessage) ∈ gs
          ∧ ∃ oid usr, parseOid e.userId = some oid
              ∧ findUser users oid = some usr
  | [], l, h => by
      rw [resolveConvs] at h
      obtain rfl : ([] : List ConvEntry) = l := Except.ok.inj h
      simp
  | (k, m) :: rest, l, h => by
      rw [resolveConvs] at h
      split at h
      · simp at h
      · rename_i oid hp
        split at h
        · intro e he
          obtain ⟨hmem, hres⟩ := resolveConvs_mem users rest l h e he
          exact ⟨List.mem_cons_of_mem _ hmem, hres⟩
        · rename_i usr hf
          split at h
          · simp at h
          · rename_i tail hr
            obtain rfl := Except.ok.inj h
            intro e he
            rcases List.mem_cons.mp he with rfl | he2
            · exact ⟨List.mem_cons_self _ _, oid, usr, hp, hf⟩
            · obtain ⟨hmem, hres⟩ := resolveConvs_mem users rest tail hr e he2
              exact ⟨List.mem_cons_of_mem _ hmem, hres⟩

theorem resolveConvs_error_invalid (users : List UserRec) :
    ∀ gs : List (String × Message), ∀ e : ConvErr,
      resolveConvs users gs = Except.error e →
        ∃ p ∈ gs, parseOid p.1 = none
  | [], e, h => by rw [resolveConvs] at h; simp at h
  | (k, m) :: rest, e, h => by
      rw [resolveConvs] at h
      split at h
      · rename_i hp
        exact ⟨(k, m), List.mem_cons_self _ _, hp⟩
      · split at h
        · obtain ⟨p, hp, hnone⟩ := resolveConvs_error_invalid users rest e h
          exact ⟨p, List.mem_cons_of_mem _ hp, hnone⟩
        · split at h
          · rename_i hr
            obtain rfl := Except.error.inj h
            obtain ⟨p, hp, hnone⟩ := resolveConvs_error_invalid users rest _ hr
            exact ⟨p, List.mem_cons_of_mem _ hp, hnone⟩
          · simp at h

theorem resolveConvs_ok_of_valid (users : List UserRec)
    (gs : List (String × Message))
    (hvalid : ∀ p ∈ gs, (parseOid p.1).isSome = true) :
    ∃ l, resolveConvs users gs = Except.ok l := by
  cases hres : resolveConvs users gs with
  | ok l => exact ⟨l, rfl⟩
  | error e =>
      obtain ⟨p, hp, hnone⟩ := resolveConvs_error_invalid users gs e hres
      have hval := hvalid p hp
      rw [hnone] at hval
      simp at hval

theorem matched_counterpart_iff (u k : String) (m : Message) :
    (matchPred u m = true ∧ counterpart u m = k) ↔ betweenB u k m = true := by
  unfold matchPred counterpart betweenB
  by_cases hs : m.senderId = u
  · subst hs
    simp only [if_pos rfl, beq_self_eq_true, Bool.true_or, Bool.true_and,
      true_and]
    constructor
    · intro hr
      subst hr
      simp
    · intro hor
      rcases Bool.or_eq_true_iff.mp hor with hl | hr
      · exact beq_iff_eq.mp hl
      · obtain ⟨h1, h2⟩ := Bool.and_eq_true_iff.mp hr
        exact (beq_iff_eq.mp h2).trans (beq_iff_eq.mp h1)
  · rw [if_neg hs]
    constructor
    · intro ⟨hmatch, hk⟩
      rcases Bool.or_eq_true_iff.mp hmatch with h1 | h1
      · exact absurd (beq_iff_eq.mp h1) hs
      · apply Bool.or_eq_true_iff.mpr
        exact Or.inr (Bool.and_eq_true_iff.mpr ⟨beq_iff_eq.mpr hk, h1⟩)
    · intro hor
      rcases Bool.or_eq_true_iff.mp hor with h1 | h1
      · exact absurd (beq_iff_eq.mp (Bool.and_eq_true_iff.mp h1).1) hs
      · obtain ⟨h1a, h1b⟩ := Bool.and_eq_true_iff.mp h1
        exact ⟨Bool.or_eq_true_iff.mpr (Or.inr h1b), beq_iff_eq.mp h1a⟩

/-! ## Claim theorems -/

/-- Claim C2: for every pair of users `a` and `b`, `history(a,b)` returns the
same list of messages in the same order as `history(b,a)`, the list is sorted
by creation timestamp ascending, and it contains at most 1000 records. -/
theorem history_symmetric_sorted_bounded (st : ServerState) (a b : String) :
    get_user_messages st a b = get_user_messages st b a
    ∧ List.Pairwise tsLe (get_user_messages st a b)
    ∧ (get_user_messages st a b).length ≤ 1000 := by
  refine ⟨?_, ?_, ?_⟩
  · have hf : histFilter a b st.messages = histFilter b a st.messages := by
      unfold histFilter
      apply List.filter_congr
      intro mm _
      exact Bool.or_comm _ _
    rw [get_user_messages, get_user_messages, hf]
  · exact List.Pairwise.sublist (List.take_sublist _ _)
      (List.sorted_insertionSort tsLe _)
  · exact List.length_take_le _ _

/-- Claim C8: when the durable append fails during send, the failure
propagates to the caller as a rejection, nothing is persisted, and no push to
the receiver's connection is attempted (empty `send_message` trace). -/
theorem insert_failure_no_push (st : ServerState) (m : MessageCreate)
    (s : String) :
    create_message false st m s = (Except.error StoreErr.writeFailed, st, []) :=
  rfl

/-- Claim C9: an inbound frame parsing as a JSON object whose `"type"`
discriminator is `"ping"` makes the handler push exactly one `"pong"`
acknowledgment back to the same user, keep the channel open, and leave the
message log unchanged. -/
theorem ping_frame_single_pong_log_unchanged (st : ServerState) (u : String)
    (fields : List (String × Json)) (h : isPingFrame fields = true) :
    handleFrame st u (some (Json.obj fields)) =
      StepResult.stayOpen { st with mgr := send_message st.mgr u pongFrame }
        [(u, pongFrame)]
    ∧ ({ st with mgr := send_message st.mgr u pongFrame } : ServerState).messages
        = st.messages := by
  constructor
  · simp only [handleFrame]
    rw [if_pos h]
  · rfl

/-- Witness for C9 at a concrete frame and state. -/
theorem ping_frame_single_pong_log_unchanged_witness :
    isPingFrame [("type", Json.str "ping")] = true
    ∧ (handleFrame sampleState "u1"
          (some (Json.obj [("type", Json.str "ping")])) =
        StepResult.stayOpen
          { sampleState with
              mgr := send_message sampleState.mgr "u1" pongFrame }
          [("u1", pongFrame)]
       ∧ ({ sampleState with
              mgr := send_message sampleState.mgr "u1" pongFrame } :
            ServerState).messages = sampleState.messages) :=
  ⟨rfl, ping_frame_single_pong_log_unchanged sampleState "u1"
    [("type", Json.str "ping")] rfl⟩

/-- Counterexample to claim C7 as stated: the frame `"hello"` is valid JSON
without any type discriminator, yet processing it does not leave the
connection open — `obj.get` raises `AttributeError`, which escapes the inner
`except (JSONDecodeError, KeyError)` and lands in the outer
`except Exception`, closing the handler loop. -/
theorem nonobject_frame_closes_connection :
    isOpenStep (handleFrame sampleState "u1" (some (Json.str "hello"))) =
      false := rfl

/-- Claim C7 (amended): a frame that fails to parse as JSON, or parses as a
JSON object without the recognized `"ping"` discriminator, is silently
discarded — no push, no state change, connection stays open. (A frame whose
JSON parse yields a non-object value instead closes the connection.) -/
theorem malformed_frame_discarded (st : ServerState) (u : String)
    (parsed : Option Json)
    (h : parsed = none ∨
      ∃ fields, parsed = some (Json.obj fields) ∧ isPingFrame fields = false) :
    handleFrame st u parsed = StepResult.stayOpen st [] := by
  rcases h with rfl | ⟨fields, rfl, hp⟩
  · rfl
  · simp [handleFrame, hp]

/-- Witness for the amended C7 at a concrete unparseable frame. -/
theorem malformed_frame_discarded_witness :
    handleFrame sampleState "u1" none = StepResult.stayOpen sampleState [] :=
  malformed_frame_discarded sampleState "u1" none (Or.inl rfl)

/-- Claim C10: `conversations(u)` returns at most 100 conversation summaries;
surplus groups beyond the cursor bound `to_list(100)` are silently
truncated. -/
theorem conversations_at_most_100 (st : ServerState) (u : String)
    (l : List ConvEntry) (h : get_conversations st u = Except.ok l) :
    l.length ≤ 100 := by
  have hsub := resolveConvs_keys_sublist st.users (convGroups st u) l h
  have h1 : l.length ≤ (convGroups st u).length := by
    have h2 := hsub.length_le
    simpa using h2
  exact le_trans h1 (by unfold convGroups; exact List.length_take_le _ _)

/-- Witness for C10 at a concrete state. -/
theorem conversations_at_most_100_witness :
    get_conversations sampleState "u1" = Except.ok []
    ∧ ([] : List ConvEntry).length ≤ 100 :=
  ⟨rfl, conversations_at_most_100 sampleState "u1" [] rfl⟩

/-- Claim C5: `push` never raises: it never deregisters an entry, a push to
an unregistered user is a no-op, a transmission failure is swallowed without
retry or deregistration; consequently a send to an offline receiver still
succeeds, appends the message, and leaves it retrievable via `history`. -/
theorem push_never_raises_offline_send (mgr : MgrState) (u : String)
    (f : Json) (st : ServerState) (m : MessageCreate) (s : String) :
    (send_message mgr u f).active = mgr.active
    ∧ (lookupConn mgr u = none → send_message mgr u f = mgr)
    ∧ (∀ c : Conn, lookupConn mgr u = some c → c.ok = false →
        send_message mgr u f = mgr)
    ∧ (lookupConn st.mgr m.receiverId = none →
        ∃ out st2 pushes msg,
          create_message true st m s = (Except.ok out, st2, pushes)
          ∧ st2.messages = st.messages ++ [msg]
          ∧ ((histFilter s m.receiverId st.messages).length < 1000 →
              msg ∈ get_user_messages st2 s m.receiverId)) := by
  refine ⟨send_message_active mgr u f, ?_, ?_, ?_⟩
  · intro hnone
    unfold send_message
    rw [hnone]
  · intro c hc hok
    unfold send_message
    rw [hc]
    simp [hok]
  · intro _
    refine ⟨_, _, _,
      { receiverId := m.receiverId, jobId := m.jobId, message := m.message,
        id := st.nextId, senderId := s, timestamp := st.now, read := false },
      rfl, rfl, ?_⟩
    intro hlen
    set msg : Message :=
      { receiverId := m.receiverId, jobId := m.jobId, message := m.message,
        id := st.nextId, senderId := s, timestamp := st.now, read := false }
      with hmsg
    have happend : histFilter s m.receiverId (st.messages ++ [msg])
        = histFilter s m.receiverId st.messages ++ [msg] := by
      unfold histFilter
      rw [List.filter_append]
      congr 1
      simp [hmsg]
    show msg ∈ (List.insertionSort tsLe
      (histFilter s m.receiverId (st.messages ++ [msg]))).take 1000
    have h1000 : (List.insertionSort tsLe
        (histFilter s m.receiverId (st.messages ++ [msg]))).length ≤ 1000 := by
      rw [List.length_insertionSort, happend, List.length_append]
      simp only [List.length_singleton]
      omega
    rw [List.take_of_length_le h1000]
    exact (List.perm_insertionSort tsLe _).mem_iff.mpr
      (by rw [happend]
          exact List.mem_append_right _ (List.mem_singleton_self msg))

/-- Witness for C5: a push over a broken channel is swallowed, a push to an
absent user is a no-op, and an offline send appends a retrievable message. -/
theorem push_never_raises_offline_send_witness :
    send_message brokenMgr "u2" pongFrame = brokenMgr
    ∧ send_message emptyMgr "u9" pongFrame = emptyMgr
    ∧ (∃ out st2 pushes msg,
        create_message true sampleState sampleCreate "u1" =
          (Except.ok out, st2, pushes)
        ∧ st2.messages = sampleState.messages ++ [msg]
        ∧ ((histFilter "u1" sampleCreate.receiverId
              sampleState.messages).length < 1000 →
            msg ∈ get_user_messages st2 "u1" sampleCreate.receiverId)) :=
  ⟨(push_never_raises_offline_send brokenMgr "u2" pongFrame sampleState
      sampleCreate "u1").2.2.1 { connId := 7, ok := false } rfl rfl,
   (push_never_raises_offline_send emptyMgr "u9" pongFrame sampleState
      sampleCreate "u1").2.1 rfl,
   (push_never_raises_offline_send emptyMgr "u9" pongFrame sampleState
      sampleCreate "u1").2.2.2 rfl⟩

/-- Claim C6: the registry keeps at most one entry per user identifier
(`connect` preserves key uniqueness), a second `connect` for the same
identifier unconditionally overwrites the first, and a subsequent push
reaches only the newest connection — the prior one receives nothing. -/
theorem registry_single_entry_newest_wins (mgr : MgrState) (u : String)
    (c1 c2 : Conn) (f : Json)
    (hnd : (mgr.active.map Prod.fst).Nodup) :
    ((connect mgr u c1).active.map Prod.fst).Nodup
    ∧ lookupConn (connect (connect mgr u c1) u c2) u = some c2
    ∧ (send_message (connect (connect mgr u c1) u c2) u f).delivered
        = (connect (connect mgr u c1) u c2).delivered
            ++ (if c2.ok then [(c2.connId, f)] else []) := by
  refine ⟨dictInsert_keys_nodup u c1 mgr.active hnd,
    lookupConn_connect _ u c2, ?_⟩
  have hc := lookupConn_connect (connect mgr u c1) u c2
  obtain ⟨cid, cok⟩ := c2
  cases cok <;> simp [send_message, hc]

/-- Witness for C6 at a concrete registry with two successive connections. -/
theorem registry_single_entry_newest_wins_witness :
    (emptyMgr.active.map Prod.fst).Nodup
    ∧ (((connect emptyMgr "u1" { connId := 1, ok := true }).active.map
          Prod.fst).Nodup
       ∧ lookupConn (connect (connect emptyMgr "u1" { connId := 1, ok := true })
            "u1" { connId := 2, ok := true }) "u1" =
          some { connId := 2, ok := true }
       ∧ (send_message
            (connect (connect emptyMgr "u1" { connId := 1, ok := true })
              "u1" { connId := 2, ok := true }) "u1" pongFrame).delivered
          = (connect (connect emptyMgr "u1" { connId := 1, ok := true })
              "u1" { connId := 2, ok := true }).delivered
              ++ [(2, pongFrame)]) :=
  ⟨by simp [emptyMgr],
   registry_single_entry_newest_wins emptyMgr "u1" { connId := 1, ok := true }
     { connId := 2, ok := true } pongFrame (by simp [emptyMgr])⟩

/-- Claim C3: `send` appends a message with a fresh identifier, the current
server tick, `read = false` and verbatim body and identifiers; the persisted
record is returned with `id`, the UTC-suffixed ISO timestamp and
`read = false`; and exactly one push tagged `"new_message"`, carrying the
normalized message, is addressed to the receiver. -/
theorem create_message_appends_fresh_pushes (st : ServerState)
    (m : MessageCreate) (s : String)
    (hfresh : ∀ mo ∈ st.messages, mo.id < st.nextId) :
    ∃ out st2 msg,
      create_message true st m s =
        (Except.ok out, st2,
         [(m.receiverId,
           Json.obj [("type", Json.str "new_message"),
                     ("payload", msgForWs msg)])])
      ∧ st2.messages = st.messages ++ [msg]
      ∧ msg.senderId = s ∧ msg.receiverId = m.receiverId
      ∧ msg.jobId = m.jobId ∧ msg.message = m.message
      ∧ msg.timestamp = st.now ∧ msg.read = false
      ∧ msg.id ∉ st.messages.map Message.id
      ∧ out.id = msg.id ∧ out.timestamp = isoUtc st.now
      ∧ (∃ p, out.timestamp = p ++ "Z") ∧ out.read = false := by
  refine ⟨_, _,
    { receiverId := m.receiverId, jobId := m.jobId, message := m.message,
      id := st.nextId, senderId := s, timestamp := st.now, read := false },
    rfl, rfl, rfl, rfl, rfl, rfl, rfl, rfl, ?_, rfl, rfl,
    ⟨toString st.now, rfl⟩, rfl⟩
  intro hmem
  obtain ⟨mo, hmo, hid⟩ := List.mem_map.mp hmem
  have hlt := hfresh mo hmo
  simp only at hid
  omega

/-- Witness for C3 at a fresh server state. -/
theorem create_message_appends_fresh_pushes_witness :
    (∀ mo ∈ sampleState.messages, mo.id < sampleState.nextId)
    ∧ (∃ out st2 msg,
        create_message true sampleState sampleCreate "u1" =
          (Except.ok out, st2,
           [(sampleCreate.receiverId,
             Json.obj [("type", Json.str "new_message"),
                       ("payload", msgForWs msg)])])
        ∧ st2.messages = sampleState.messages ++ [msg]
        ∧ msg.senderId = "u1" ∧ msg.receiverId = sampleCreate.receiverId
        ∧ msg.jobId = sampleCreate.jobId ∧ msg.message = sampleCreate.message
        ∧ msg.timestamp = sampleState.now ∧ msg.read = false
        ∧ msg.id ∉ sampleState.messages.map Message.id
        ∧ out.id = msg.id ∧ out.timestamp = isoUtc sampleState.now
        ∧ (∃ p, out.timestamp = p ++ "Z") ∧ out.read = false) :=
  ⟨by simp [sampleState],
   create_message_appends_fresh_pushes sampleState sampleCreate "u1"
     (by simp [sampleState])⟩

/-- Counterexample to claim C4 as stated: the counterpart identifier `"bob"`
appears in the message log, is not a well-formed ObjectId string, and makes
`get_conversations` raise (`bson.errors.InvalidId` from
`ObjectId(other_user_id)`) instead of silently omitting the group. -/
theorem conversations_raise_on_malformed_counterpart :
    get_conversations danglingState aliceId =
      Except.error ConvErr.invalidObjectId := rfl

/-- Claim C4 (amended): restricted to logs whose counterpart identifiers are
all well-formed ObjectId strings (24 hexadecimal characters), the operation
does not raise, and a group whose counterpart does not resolve to a known
user is silently omitted from the result. A malformed counterpart identifier
instead raises. -/
theorem conversations_drop_dangling_wellformed (st : ServerState)
    (u : String)
    (hvalid : ∀ p ∈ convGroups st u, (parseOid p.1).isSome = true) :
    ∃ l, get_conversations st u = Except.ok l
      ∧ ∀ k : String, ∀ mm : Message, (k, mm) ∈ convGroups st u →
          ∀ oid, parseOid k = some oid → findUser st.users oid = none →
            ∀ e ∈ l, e.userId ≠ k := by
  obtain ⟨l, hl⟩ := resolveConvs_ok_of_valid st.users (convGroups st u) hvalid
  refine ⟨l, hl, ?_⟩
  intro k mm hmem oid hoid hnone e he heq
  obtain ⟨_, oid2, usr, hp2, hf2⟩ :=
    resolveConvs_mem st.users (convGroups st u) l hl e he
  rw [heq, hoid] at hp2
  obtain rfl := Option.some.inj hp2
  rw [hnone] at hf2
  simp at hf2

/-- Witness for the amended C4: a well-formed counterpart id absent from the
user directory is dropped without an error. -/
theorem conversations_drop_dangling_wellformed_witness :
    (∀ p ∈ convGroups hexState aliceId, (parseOid p.1).isSome = true)
    ∧ (∃ l, get_conversations hexState aliceId = Except.ok l
        ∧ ∀ k : String, ∀ mm : Message, (k, mm) ∈ convGroups hexState aliceId →
            ∀ oid, parseOid k = some oid →
              findUser hexState.users oid = none →
                ∀ e ∈ l, e.userId ≠ k) :=
  ⟨by decide, conversations_drop_dangling_wellformed hexState aliceId
    (by decide)⟩

/-- Claim C1: `conversations(u)` holds at most one entry per distinct
counterpart, and each entry's `lastMessage` is a logged message between `u`
and that counterpart whose timestamp is maximal among all such messages. -/
theorem conversations_unique_counterpart_latest (st : ServerState)
    (u : String) (l : List ConvEntry)
    (h : get_conversations st u = Except.ok l) :
    List.Pairwise (fun e1 e2 => e1.userId ≠ e2.userId) l
    ∧ ∀ e ∈ l,
        e.lastMessage ∈ st.messages
        ∧ betweenB u e.userId e.lastMessage = true
        ∧ ∀ m2 ∈ st.messages, betweenB u e.userId m2 = true →
            m2.timestamp ≤ e.lastMessage.timestamp := by
  constructor
  · have hsub := resolveConvs_keys_sublist st.users (convGroups st u) l h
    have hkeys : ((convGroups st u).map Prod.fst).Nodup := by
      unfold convGroups
      exact List.Nodup.sublist
        (List.Sublist.map Prod.fst (List.take_sublist _ _))
        (groupFirstByKey_keys_nodup u _)
    have hnodupl : (l.map ConvEntry.userId).Nodup :=
      List.Nodup.sublist hsub hkeys
    exact List.pairwise_map.mp hnodupl
  · intro e he
    obtain ⟨hmem, _⟩ := resolveConvs_mem st.users (convGroups st u) l h e he
    have hmem2 : (e.userId, e.lastMessage) ∈
        groupFirstByKey u
          (List.insertionSort tsGe (st.messages.filter (matchPred u))) := by
      unfold convGroups at hmem
      exact (List.take_sublist _ _).subset hmem
    obtain ⟨hms, hcp⟩ := groupFirstByKey_mem u _ _ _ hmem2
    have hml : e.lastMessage ∈ st.messages.filter (matchPred u) :=
      (List.perm_insertionSort tsGe _).mem_iff.mp hms
    obtain ⟨hmsg, hmatch⟩ := List.mem_filter.mp hml
    refine ⟨hmsg,
      (matched_counterpart_iff u e.userId e.lastMessage).mp ⟨hmatch, hcp⟩, ?_⟩
    intro m2 hm2 hbetw
    obtain ⟨hmatch2, hcp2⟩ := (matched_counterpart_iff u e.userId m2).mpr hbetw
    have hm2sort : m2 ∈
        List.insertionSort tsGe (st.messages.filter (matchPred u)) :=
      (List.perm_insertionSort tsGe _).mem_iff.mpr
        (List.mem_filter.mpr ⟨hm2, hmatch2⟩)
    have hpw : List.Pairwise tsGe
        (List.insertionSort tsGe (st.messages.filter (matchPred u))) :=
      List.sorted_insertionSort tsGe _
    exact groupFirstByKey_max u _ hpw _ _ hmem2 m2 hm2sort hcp2

/-- Witness for C1 at a concrete one-message chat. -/
theorem conversations_unique_counterpart_latest_witness :
    get_conversations chatState aliceId =
      Except.ok ([{ userId := bobId, userName := "Bob",
                    lastMessage := chatMsg }] : List ConvEntry)
    ∧ (List.Pairwise (fun e1 e2 => e1.userId ≠ e2.userId)
        ([{ userId := bobId, userName := "Bob",
            lastMessage := chatMsg }] : List ConvEntry)
       ∧ ∀ e ∈ ([{ userId := bobId, userName := "Bob",
                   lastMessage := chatMsg }] : List ConvEntry),
           e.lastMessage ∈ chatState.messages
           ∧ betweenB aliceId e.userId e.lastMessage = true
           ∧ ∀ m2 ∈ chatState.messages,
               betweenB aliceId e.userId m2 = true →
                 m2.timestamp ≤ e.lastMessage.timestamp) :=
  ⟨by decide, conversations_unique_counterpart_latest chatState aliceId
    ([{ userId := bobId, userName := "Bob",
        lastMessage := chatMsg }] : List ConvEntry) (by decide)⟩

set_option maxRecDepth 8000 in
/-- Counterexample to claim C5 as stated: with the receiver offline and 1000
messages already logged between the pair, the send still succeeds and
appends its message, but `history` — ascending sort then `to_list(1000)` —
returns only the oldest 1000 records, so the new message is not retrievable
via `history`. -/
theorem offline_send_history_truncated :
    lookupConn fullState.mgr sampleCreate.receiverId = none
    ∧ (create_message true fullState sampleCreate "u1").1 =
        Except.ok { id := 1000, senderId := "u1", receiverId := "u2",
                    jobId := "j1", message := "hello",
                    timestamp := isoUtc 1000, read := false }
    ∧ (create_message true fullState sampleCreate "u1").2.1.messages
        = fullState.messages ++ [newMsg1000]
    ∧ newMsg1000 ∉
        get_user_messages (create_message true fullState sampleCreate "u1").2.1
          "u1" "u2" := by
  refine ⟨rfl, rfl, rfl, ?_⟩
  have hmsgs : (create_message true fullState sampleCreate "u1").2.1.messages
      = manyMsgs ++ [newMsg1000] := rfl
  have hfilter : histFilter "u1" "u2" (manyMsgs ++ [newMsg1000])
      = manyMsgs ++ [newMsg1000] := by
    apply List.filter_eq_self.mpr
    intro a ha
    rcases List.mem_append.mp ha with ha | ha
    · obtain ⟨i, _, rfl⟩ := List.mem_map.mp ha
      rfl
    · rw [List.mem_singleton.mp ha]
      rfl
  have hsorted : List.Pairwise tsLe (manyMsgs ++ [newMsg1000]) := by
    rw [List.pairwise_append]
    refine ⟨?_, List.pairwise_singleton _ _, ?_⟩
    · apply List.pairwise_map.mpr
      apply List.Pairwise.imp ?_ (List.pairwise_lt_range 1000)
      intro i j hij
      exact Nat.le_of_lt hij
    · intro a ha b hb
      obtain ⟨i, hi, rfl⟩ := List.mem_map.mp ha
      rw [List.mem_singleton.mp hb]
      exact Nat.le_of_lt (List.mem_range.mp hi)
  have hlen : manyMsgs.length = 1000 := by simp [manyMsgs]
  unfold get_user_messages
  rw [hmsgs, hfilter, List.Sorted.insertionSort_eq hsorted,
    show (1000 : Nat) = manyMsgs.length from hlen.symm, List.take_left]
  intro hmem
  obtain ⟨i, hi, heq⟩ := List.mem_map.mp hmem
  have hid : (pairMsg i).id = newMsg1000.id := by rw [heq]
  have hieq : i = 1000 := hid
  have hlt := List.mem_range.mp hi
  omega
